import Mathlib

/-!
Verification of the `r4::matrix3` component (src/src/r4/matrix3.hpp):
a 3×3 column-major matrix over a generic scalar type, used for 2D
affine/projective transforms.  The matrix is embedded as three column
vectors; every operation is translated from the C++ source.  The
companion vector types (`vector2`, `vector3`) are external collaborators
whose headers are not part of the sources; their operations (component
access, component-wise arithmetic, dot product) are modelled from the
specification's interface description.
-/

namespace r4

/-- Modelled from the spec: the external `vector2` collaborator type,
exposing `x`, `y` components (vector2.hpp is not among the sources). -/
structure vector2 (α : Type) where
  x : α
  y : α
deriving DecidableEq

/-- Modelled from the spec: the external `vector3` collaborator type,
exposing three components with indexed access 0..2
(vector3.hpp is not among the sources). -/
structure vector3 (α : Type) where
  x : α
  y : α
  z : α
deriving DecidableEq

/-- Modelled from the spec: indexed component access `v[i]` of `vector3`
for an index already known to be in range, as a total function on `Fin 3`. -/
def vector3.comp {α : Type} (v : vector3 α) : Fin 3 → α
  | ⟨0, _⟩ => v.x
  | ⟨1, _⟩ => v.y
  | ⟨2, _⟩ => v.z

/-- Modelled from the spec: indexed component access `v[i]` of `vector3`
with the precondition `i < 3` made explicit (out-of-range access in the
C++ source is a precondition violation, guarded only by a debug assert). -/
def vector3.compAt {α : Type} (v : vector3 α) (i : Nat) (h : i < 3) : α :=
  v.comp ⟨i, h⟩

/-- Modelled from the spec: dot product of two `vector3` values
(the `operator*(vector3)` of the external collaborator). -/
def vector3.dot {α : Type} [CommRing α] (a b : vector3 α) : α :=
  a.x * b.x + a.y * b.y + a.z * b.z

/-- Modelled from the spec: dot product of a `vector3` row with a
`vector2`, using only the first two row components; per the spec the
2-component path discards the homogeneous part, and callers wanting full
homogeneous semantics must pass an explicit third component. -/
def vector3.dot2 {α : Type} [CommRing α] (a : vector3 α) (b : vector2 α) : α :=
  a.x * b.x + a.y * b.y

/-- Modelled from the spec: component-wise sum of two `vector3` values. -/
def vector3.add {α : Type} [CommRing α] (a b : vector3 α) : vector3 α :=
  ⟨a.x + b.x, a.y + b.y, a.z + b.z⟩

/-- Modelled from the spec: multiplication of a `vector3` by a scalar
(the `operator*(T)` / `operator*=(T)` of the external collaborator). -/
def vector3.smul {α : Type} [CommRing α] (v : vector3 α) (s : α) : vector3 α :=
  ⟨v.x * s, v.y * s, v.z * s⟩

/-- The `matrix3` type: three columns `c0`, `c1`, `c2`, stored column by
column, each a 3-component vector. -/
structure matrix3 (α : Type) where
  c0 : vector3 α
  c1 : vector3 α
  c2 : vector3 α
deriving DecidableEq

/-- Column access `operator[](col)` for an index already known to be in
range, as a total function on `Fin 3`: the source computes
`(&this->c0)[col]`, i.e. the `col`-th of the three consecutive columns. -/
def matrix3.col {α : Type} (m : matrix3 α) : Fin 3 → vector3 α
  | ⟨0, _⟩ => m.c0
  | ⟨1, _⟩ => m.c1
  | ⟨2, _⟩ => m.c2

/-- Column access `operator[](col)` with the precondition `col < 3` made
explicit, mirroring the debug assertion `ASSERT(col < 3)` of the source. -/
def matrix3.colAt {α : Type} (m : matrix3 α) (i : Nat) (h : i < 3) : vector3 α :=
  m.col ⟨i, h⟩

/-- `row(rowNum)`: builds a new vector from the `rowNum`-th component of
each column, `vector3(c0[rowNum], c1[rowNum], c2[rowNum])`. -/
def matrix3.row {α : Type} (m : matrix3 α) (i : Fin 3) : vector3 α :=
  ⟨m.c0.comp i, m.c1.comp i, m.c2.comp i⟩

/-- `row(rowNum)` with the precondition `rowNum < 3` made explicit,
mirroring the debug assertion `ASSERT(rowNum < 3)` of the source. -/
def matrix3.rowAt {α : Type} (m : matrix3 α) (i : Nat) (h : i < 3) : vector3 α :=
  m.row ⟨i, h⟩

/-- Matrix × matrix (`operator*(const matrix3&)`): the result's column k
has components `row(i) * matr[k]` for i = 0, 1, 2, exactly as written in
the source. -/
def matrix3.mul {α : Type} [CommRing α] (m matr : matrix3 α) : matrix3 α :=
  ⟨⟨(m.row 0).dot (matr.col 0), (m.row 1).dot (matr.col 0), (m.row 2).dot (matr.col 0)⟩,
   ⟨(m.row 0).dot (matr.col 1), (m.row 1).dot (matr.col 1), (m.row 2).dot (matr.col 1)⟩,
   ⟨(m.row 0).dot (matr.col 2), (m.row 1).dot (matr.col 2), (m.row 2).dot (matr.col 2)⟩⟩

/-- Matrix × vector3 (`operator*(const vector3&)`): each component is
the dot product of the corresponding row with the input vector. -/
def matrix3.mulVec3 {α : Type} [CommRing α] (m : matrix3 α) (v : vector3 α) : vector3 α :=
  ⟨(m.row 0).dot v, (m.row 1).dot v, (m.row 2).dot v⟩

/-- Matrix × vector2 (`operator*(const vector2&)`): only rows 0 and 1
are used; the result has two components. -/
def matrix3.mulVec2 {α : Type} [CommRing α] (m : matrix3 α) (v : vector2 α) : vector2 α :=
  ⟨(m.row 0).dot2 v, (m.row 1).dot2 v⟩

/-- `operator*=(matr)`: `this = this * matr`; in the source the full
product `this->operator*(matr)` is computed first and only then assigned
to `*this`, which the value-passing embedding renders directly. -/
def matrix3.mulAssign {α : Type} [CommRing α] (m matr : matrix3 α) : matrix3 α :=
  m.mul matr

/-- `right_mul(matr)`: forwards to `operator*=(matr)`. -/
def matrix3.right_mul {α : Type} [CommRing α] (m matr : matrix3 α) : matrix3 α :=
  m.mulAssign matr

/-- `left_mul(matr)`: `this = matr * this`, computed by
`matr.operator*(*this)` and then assigned. -/
def matrix3.left_mul {α : Type} [CommRing α] (m matr : matrix3 α) : matrix3 α :=
  matr.mul m

/-- `transpose()`: three successive in-place swaps
`c0[1]↔c1[0]`, `c0[2]↔c2[0]`, `c1[2]↔c2[1]`, rendered as three sequential
whole-matrix states exactly following the source's swap order. -/
def matrix3.transpose {α : Type} (m : matrix3 α) : matrix3 α :=
  let a : matrix3 α := ⟨⟨m.c0.x, m.c1.x, m.c0.z⟩, ⟨m.c0.y, m.c1.y, m.c1.z⟩, m.c2⟩
  let b : matrix3 α := ⟨⟨a.c0.x, a.c0.y, a.c2.x⟩, a.c1, ⟨a.c0.z, a.c2.y, a.c2.z⟩⟩
  ⟨b.c0, ⟨b.c1.x, b.c1.y, b.c2.y⟩, ⟨b.c2.x, b.c1.z, b.c2.z⟩⟩

/-- `identity()`: overwrites all three columns with (1,0,0), (0,1,0),
(0,0,1), regardless of the prior state `m`. -/
def matrix3.identity {α : Type} [CommRing α] (_m : matrix3 α) : matrix3 α :=
  ⟨⟨1, 0, 0⟩, ⟨0, 1, 0⟩, ⟨0, 0, 1⟩⟩

/-- `scale(x, y)`: `c0 *= x; c1 *= y;` — column 2 remains unchanged. -/
def matrix3.scale {α : Type} [CommRing α] (m : matrix3 α) (x y : α) : matrix3 α :=
  ⟨m.c0.smul x, m.c1.smul y, m.c2⟩

/-- Modelled from the spec: the 3-argument elementary scale helper that
`scale(T s)` forwards to.  No 3-argument `scale` is defined in the
sources; per the spec it applies the scale factors in the x, y and z
directions, i.e. it scales column 0 by x, column 1 by y and column 2 by z. -/
def matrix3.scale3 {α : Type} [CommRing α] (m : matrix3 α) (x y z : α) : matrix3 α :=
  ⟨m.c0.smul x, m.c1.smul y, m.c2.smul z⟩

/-- `scale(s)` (uniform): forwards to the 3-argument scale helper,
`this->scale(s, s, s)`, exactly as written in the source. -/
def matrix3.scaleS {α : Type} [CommRing α] (m : matrix3 α) (s : α) : matrix3 α :=
  m.scale3 s s s

/-- `scale(vector2 s)`: forwards to `scale(s.x, s.y)`. -/
def matrix3.scaleV {α : Type} [CommRing α] (m : matrix3 α) (s : vector2 α) : matrix3 α :=
  m.scale s.x s.y

/-- `translate(x, y)`: columns 0 and 1 remain unchanged and
`c2 = c0 * x + c1 * y + c2`, exactly as written in the source. -/
def matrix3.translate {α : Type} [CommRing α] (m : matrix3 α) (x y : α) : matrix3 α :=
  ⟨m.c0, m.c1, ((m.c0.smul x).add (m.c1.smul y)).add m.c2⟩

/-- `translate(vector2 t)`: forwards to `translate(t.x, t.y)`. -/
def matrix3.translateV {α : Type} [CommRing α] (m : matrix3 α) (t : vector2 α) : matrix3 α :=
  m.translate t.x t.y

/-- The elementary counter-clockwise rotation-by-θ matrix about the
implicit third axis: columns (cos θ, sin θ, 0), (−sin θ, cos θ, 0),
(0, 0, 1). -/
noncomputable def rotationMatrix (θ : ℝ) : matrix3 ℝ :=
  ⟨⟨Real.cos θ, Real.sin θ, 0⟩, ⟨-Real.sin θ, Real.cos θ, 0⟩, ⟨0, 0, 1⟩⟩

/-- Modelled from the spec: `rotate(rot)` is declared in the sources but
its body is not among them; per the spec and the source's doc comment it
multiplies the matrix from the right by the counter-clockwise
rotation-by-`rot` matrix (`M = M * R`). -/
noncomputable def matrix3.rotate (m : matrix3 ℝ) (θ : ℝ) : matrix3 ℝ :=
  m.mul (rotationMatrix θ)

/-- The elementary translation matrix: identity linear part, column 2 =
(x, y, 1). -/
def translationMatrix {α : Type} [CommRing α] (x y : α) : matrix3 α :=
  ⟨⟨1, 0, 0⟩, ⟨0, 1, 0⟩, ⟨x, y, 1⟩⟩

/-- The elementary scale matrix diag(x, y, z). -/
def scaleMatrix {α : Type} [CommRing α] (x y z : α) : matrix3 α :=
  ⟨⟨x, 0, 0⟩, ⟨0, y, 0⟩, ⟨0, 0, z⟩⟩

theorem vector3.ext_comp {α : Type} {a b : vector3 α}
    (hx : a.x = b.x) (hy : a.y = b.y) (hz : a.z = b.z) : a = b := by
  cases a; cases b; simp_all

theorem matrix3.ext_cols {α : Type} {a b : matrix3 α}
    (h0 : a.c0 = b.c0) (h1 : a.c1 = b.c1) (h2 : a.c2 = b.c2) : a = b := by
  cases a; cases b; simp_all

/-- Helper: left multiplication by an identity-initialized matrix is the
identity map on matrices. -/
theorem matrix3.identity_mul {α : Type} [CommRing α] (i m : matrix3 α) :
    (i.identity).mul m = m := by
  cases m with
  | mk c0 c1 c2 =>
    cases c0; cases c1; cases c2
    apply matrix3.ext_cols <;> apply vector3.ext_comp <;>
      simp [matrix3.identity, matrix3.mul, matrix3.row, matrix3.col,
        vector3.dot, vector3.comp]

/-- Helper: right multiplication by an identity-initialized matrix is
the identity map on matrices. -/
theorem matrix3.mul_identity {α : Type} [CommRing α] (i m : matrix3 α) :
    m.mul (i.identity) = m := by
  cases m with
  | mk c0 c1 c2 =>
    cases c0; cases c1; cases c2
    apply matrix3.ext_cols <;> apply vector3.ext_comp <;>
      simp [matrix3.identity, matrix3.mul, matrix3.row, matrix3.col,
        vector3.dot, vector3.comp]

/-- Helper: the action of an identity-initialized matrix on a `vector3`. -/
theorem matrix3.identity_mulVec3 {α : Type} [CommRing α] (i : matrix3 α) (v : vector3 α) :
    (i.identity).mulVec3 v = v := by
  cases v
  apply vector3.ext_comp <;>
    simp [matrix3.identity, matrix3.mulVec3, matrix3.row, vector3.dot, vector3.comp]

/-- Helper: the action of an identity-initialized matrix on a `vector2`. -/
theorem matrix3.identity_mulVec2 {α : Type} [CommRing α] (i : matrix3 α) (v : vector2 α) :
    (i.identity).mulVec2 v = v := by
  cases v with
  | mk vx vy =>
    show vector2.mk _ _ = _
    simp [matrix3.identity, matrix3.mulVec2, matrix3.row, vector3.dot2, vector3.comp]

/-- Helper: `translate(x, y)` equals right multiplication by the
elementary translation matrix. -/
theorem matrix3.translate_eq_mul {α : Type} [CommRing α] (m : matrix3 α) (x y : α) :
    m.translate x y = m.mul (translationMatrix x y) := by
  cases m with
  | mk c0 c1 c2 =>
    cases c0; cases c1; cases c2
    apply matrix3.ext_cols <;> apply vector3.ext_comp <;>
      simp [matrix3.translate, translationMatrix, matrix3.mul, matrix3.row,
        matrix3.col, vector3.dot, vector3.comp, vector3.add, vector3.smul]

/-- Helper: `scale3(x, y, z)` equals right multiplication by diag(x,y,z). -/
theorem matrix3.scale3_eq_mul {α : Type} [CommRing α] (m : matrix3 α) (x y z : α) :
    m.scale3 x y z = m.mul (scaleMatrix x y z) := by
  cases m with
  | mk c0 c1 c2 =>
    cases c0; cases c1; cases c2
    apply matrix3.ext_cols <;> apply vector3.ext_comp <;>
      simp [matrix3.scale3, scaleMatrix, matrix3.mul, matrix3.row,
        matrix3.col, vector3.dot, vector3.comp, vector3.smul]

/-- Helper: `scale(x, y)` equals right multiplication by diag(x,y,1). -/
theorem matrix3.scale_eq_mul {α : Type} [CommRing α] (m : matrix3 α) (x y : α) :
    m.scale x y = m.mul (scaleMatrix x y 1) := by
  cases m with
  | mk c0 c1 c2 =>
    cases c0; cases c1; cases c2
    apply matrix3.ext_cols <;> apply vector3.ext_comp <;>
      simp [matrix3.scale, scaleMatrix, matrix3.mul, matrix3.row,
        matrix3.col, vector3.dot, vector3.comp, vector3.smul]

/-- Claim C1: for all matrices A and B, `A.operator*(B)` returns a new
matrix whose column k equals A applied to B's column k; entry (i,k) is
the dot product of row i of A with column k of B; and `operator*=`
assigns the fully computed product, so the self-referencing update
`a *= a` produces `a * a`. -/
theorem claim_C1_matrix_product :
    ∀ (α : Type) [CommRing α] (A B : matrix3 α),
      (∀ k : Fin 3, (A.mul B).col k = A.mulVec3 (B.col k)) ∧
      (∀ i k : Fin 3, ((A.mul B).col k).comp i = (A.row i).dot (B.col k)) ∧
      A.mulAssign B = A.mul B ∧ A.mulAssign A = A.mul A := by
  intro α _ A B
  refine ⟨?_, ?_, rfl, rfl⟩
  · intro k; fin_cases k <;> rfl
  · intro i k; fin_cases i <;> fin_cases k <;> rfl

/-- Claim C2: `right_mul(B)` equals `A * B` and is identical to
`operator*=(B)`; `left_mul(B)` equals `B * A`; and there exist
non-commuting integer matrices for which the two results differ. -/
theorem claim_C2_right_left_mul :
    (∀ (α : Type) [CommRing α] (A B : matrix3 α),
        A.right_mul B = A.mul B ∧ A.right_mul B = A.mulAssign B ∧
        A.left_mul B = B.mul A) ∧
    (∃ A B : matrix3 ℤ, A.right_mul B ≠ A.left_mul B) := by
  refine ⟨fun α _ A B => ⟨rfl, rfl, rfl⟩, ?_⟩
  exact ⟨⟨⟨1, 0, 0⟩, ⟨1, 1, 0⟩, ⟨0, 0, 1⟩⟩,
         ⟨⟨2, 0, 0⟩, ⟨0, 1, 0⟩, ⟨0, 0, 1⟩⟩, by decide⟩

/-- Claim C3: `translate(x, y)` leaves columns 0 and 1 unchanged and
replaces column 2 with `c0*x + c1*y + c2` (equivalently, it
right-multiplies by the elementary translation matrix); consequently
`identity().translate(1,0).translate(0,1)` applied to (0,0,1) yields
(1,1,1). -/
theorem claim_C3_translate :
    (∀ (α : Type) [CommRing α] (M : matrix3 α) (x y : α),
        (M.translate x y).c0 = M.c0 ∧ (M.translate x y).c1 = M.c1 ∧
        (M.translate x y).c2 = ((M.c0.smul x).add (M.c1.smul y)).add M.c2 ∧
        M.translate x y = M.mul (translationMatrix x y)) ∧
    ((((matrix3.mk ⟨0, 0, 0⟩ ⟨0, 0, 0⟩ ⟨0, 0, 0⟩ : matrix3 ℤ).identity.translate
        1 0).translate 0 1).mulVec3 ⟨0, 0, 1⟩ = ⟨1, 1, 1⟩) :=
  ⟨fun α _ M x y => ⟨rfl, rfl, rfl, M.translate_eq_mul x y⟩, by decide⟩

/-- Claim C4: `scale(x, y)` multiplies column 0 by x and column 1 by y
and leaves the translation column 2 unchanged (equivalently, it
right-multiplies by diag(x,y,1)); consequently
`identity().translate(5,5).scale(2,2)` applied to (0,0,1) yields
(5,5,1). -/
theorem claim_C4_scale :
    (∀ (α : Type) [CommRing α] (M : matrix3 α) (x y : α),
        (M.scale x y).c0 = M.c0.smul x ∧ (M.scale x y).c1 = M.c1.smul y ∧
        (M.scale x y).c2 = M.c2 ∧ M.scale x y = M.mul (scaleMatrix x y 1)) ∧
    ((((matrix3.mk ⟨0, 0, 0⟩ ⟨0, 0, 0⟩ ⟨0, 0, 0⟩ : matrix3 ℤ).identity.translate
        5 5).scale 2 2).mulVec3 ⟨0, 0, 1⟩ = ⟨5, 5, 1⟩) :=
  ⟨fun α _ M x y => ⟨rfl, rfl, rfl, M.scale_eq_mul x y⟩, by decide⟩

/-- Claim C5: the single-scalar `scale(s)` forwards to the 3-argument
scale helper (not the 2-argument overload), so it multiplies column 0,
column 1 AND column 2 by s — the homogeneous/z column is affected,
unlike `scale(x, y)`; equivalently it right-multiplies by diag(s,s,s). -/
theorem claim_C5_uniform_scale :
    ∀ (α : Type) [CommRing α] (M : matrix3 α) (s : α),
      M.scaleS s = M.scale3 s s s ∧
      (M.scaleS s).c0 = M.c0.smul s ∧ (M.scaleS s).c1 = M.c1.smul s ∧
      (M.scaleS s).c2 = M.c2.smul s ∧
      M.scaleS s = M.mul (scaleMatrix s s s) := by
  intro α _ M s
  exact ⟨rfl, rfl, rfl, rfl, M.scale3_eq_mul s s s⟩

/-- Claim C6: `identity()` overwrites all three columns with (1,0,0),
(0,1,0), (0,0,1), producing the same fixed result regardless of prior
state, and the identity-initialized matrix acts as the identity on both
`vector2` and `vector3` through the multiplication overloads. -/
theorem claim_C6_identity :
    ∀ (α : Type) [CommRing α] (M N : matrix3 α) (v : vector3 α) (w : vector2 α),
      M.identity = matrix3.mk ⟨1, 0, 0⟩ ⟨0, 1, 0⟩ ⟨0, 0, 1⟩ ∧
      M.identity = N.identity ∧
      (M.identity).mulVec3 v = v ∧
      (M.identity).mulVec2 w = w := by
  intro α _ M N v w
  exact ⟨rfl, rfl, M.identity_mulVec3 v, M.identity_mulVec2 w⟩

/-- Claim C7: `rotate(angle)` right-multiplies the matrix by the
counter-clockwise rotation-by-angle matrix about the implicit third
axis; in particular `identity().rotate(π/2)` applied to (1,0,0) yields
(0,1,0). -/
theorem claim_C7_rotate :
    (∀ (M : matrix3 ℝ) (θ : ℝ), M.rotate θ = M.mul (rotationMatrix θ)) ∧
    (((matrix3.mk ⟨0, 0, 0⟩ ⟨0, 0, 0⟩ ⟨0, 0, 0⟩ : matrix3 ℝ).identity.rotate
        (Real.pi / 2)).mulVec3 ⟨1, 0, 0⟩ = ⟨0, 1, 0⟩) := by
  refine ⟨fun M θ => rfl, ?_⟩
  show ((matrix3.mk ⟨0, 0, 0⟩ ⟨0, 0, 0⟩ ⟨0, 0, 0⟩ : matrix3 ℝ).identity.mul
      (rotationMatrix (Real.pi / 2))).mulVec3 ⟨1, 0, 0⟩ = ⟨0, 1, 0⟩
  rw [matrix3.identity_mul]
  apply vector3.ext_comp <;>
    simp [rotationMatrix, matrix3.mulVec3, matrix3.row, vector3.dot,
      vector3.comp, Real.cos_pi_div_two, Real.sin_pi_div_two]

/-- Claim C8: `transpose()` swaps exactly the three strictly
off-diagonal element pairs c0[1]↔c1[0], c0[2]↔c2[0], c1[2]↔c2[1] and
leaves the diagonal unchanged; applying it twice restores the matrix
exactly. -/
theorem claim_C8_transpose :
    ∀ (α : Type) (M : matrix3 α),
      (M.transpose).c0.x = M.c0.x ∧ (M.transpose).c1.y = M.c1.y ∧
      (M.transpose).c2.z = M.c2.z ∧
      (M.transpose).c0.y = M.c1.x ∧ (M.transpose).c1.x = M.c0.y ∧
      (M.transpose).c0.z = M.c2.x ∧ (M.transpose).c2.x = M.c0.z ∧
      (M.transpose).c1.z = M.c2.y ∧ (M.transpose).c2.y = M.c1.z ∧
      (M.transpose).transpose = M := by
  intro α M
  refine ⟨rfl, rfl, rfl, rfl, rfl, rfl, rfl, rfl, rfl, ?_⟩
  cases M with
  | mk c0 c1 c2 => cases c0; cases c1; cases c2; rfl

/-- Claim C9: indexed access requires its index to be below 3 as a
precondition; under that precondition `operator[](col)` returns the
col-th of the three columns and `row(n)` returns the vector of the n-th
components of the columns, so row and column extraction are mutually
consistent transposes; no other operation has an error path. -/
theorem claim_C9_indexed_access (α : Type) (M : matrix3 α) (n k : Nat)
    (h : n < 3) (hk : k < 3) :
    M.colAt n h = [M.c0, M.c1, M.c2].get ⟨n, h⟩ ∧
    M.rowAt n h = ⟨M.c0.compAt n h, M.c1.compAt n h, M.c2.compAt n h⟩ ∧
    (M.rowAt n h).compAt k hk = (M.colAt k hk).compAt n h := by
  refine ⟨?_, rfl, ?_⟩
  · interval_cases n <;> rfl
  · interval_cases n <;> interval_cases k <;> rfl

/-- Witness for claim C9 at a concrete matrix over ℤ with column index
2 and row index 1. -/
theorem claim_C9_indexed_access_witness :
    ((matrix3.mk ⟨1, 2, 3⟩ ⟨4, 5, 6⟩ ⟨7, 8, 9⟩ : matrix3 ℤ).colAt 2 (by decide) =
      [(⟨1, 2, 3⟩ : vector3 ℤ), ⟨4, 5, 6⟩, ⟨7, 8, 9⟩].get ⟨2, by decide⟩) ∧
    ((matrix3.mk ⟨1, 2, 3⟩ ⟨4, 5, 6⟩ ⟨7, 8, 9⟩ : matrix3 ℤ).rowAt 2 (by decide) =
      ⟨(⟨1, 2, 3⟩ : vector3 ℤ).compAt 2 (by decide),
       (⟨4, 5, 6⟩ : vector3 ℤ).compAt 2 (by decide),
       (⟨7, 8, 9⟩ : vector3 ℤ).compAt 2 (by decide)⟩) ∧
    (((matrix3.mk ⟨1, 2, 3⟩ ⟨4, 5, 6⟩ ⟨7, 8, 9⟩ : matrix3 ℤ).rowAt 2
        (by decide)).compAt 1 (by decide) =
      (((matrix3.mk ⟨1, 2, 3⟩ ⟨4, 5, 6⟩ ⟨7, 8, 9⟩ : matrix3 ℤ)).colAt 1
        (by decide)).compAt 2 (by decide)) :=
  claim_C9_indexed_access ℤ ⟨⟨1, 2, 3⟩, ⟨4, 5, 6⟩, ⟨7, 8, 9⟩⟩ 2 1
    (by decide) (by decide)

/-- Claim C10: an identity-initialized matrix is a two-sided unit of the
matrix product. -/
theorem claim_C10_identity_unit :
    ∀ (α : Type) [CommRing α] (I M : matrix3 α),
      (I.identity).mul M = M ∧ M.mul (I.identity) = M := by
  intro α _ I M
  exact ⟨matrix3.identity_mul I M, matrix3.mul_identity I M⟩

end r4
